import Mathlib

/-!
Shallow embedding of the auth/user-directory microservice core:
the Prisma-backed user table, the role-based visibility filter,
the user lifecycle service (first revision, with the response cache,
plus the historical second revision where a claim cites it), the
auth service (login / token verification), and the NATS controller's
response-cache layer.

Machine conventions: timestamps are `Nat` (milliseconds since epoch),
the relational store is a `List User` in insertion order (Prisma
`findFirst` is first-match in that order), and JS objects that cross
the RPC boundary are association lists of field name to value so that
field stripping (`ObjectManipulator.exclude` / `safeDelete`) can be
modelled exactly.
-/

namespace AuthMs

/-- The `Role` enum of the Prisma schema (migration `20241009155242_initial`). -/
inductive Role where
  | User
  | Admin
  | Moderator
  | Guest
deriving DecidableEq, Repr

/-- Modelled from the spec: the Password Manager (§4.2) backs `bcrypt.hashSync`,
which is not part of the repository. A digest is an opaque value determined by
the plaintext and the cost factor; `compareSync` is exact verification. -/
structure BcryptHash where
  plain : String
  cost : Nat
deriving DecidableEq, Repr

/-- Modelled from the spec: `bcrypt.hashSync(plaintext, cost)` (§4.2 `hash`). -/
def bcryptHashSync (plaintext : String) (cost : Nat) : BcryptHash :=
  ⟨plaintext, cost⟩

/-- Modelled from the spec: `bcrypt.compareSync(plaintext, digest)` (§4.2 `verify`). -/
def bcryptCompareSync (plaintext : String) (digest : BcryptHash) : Bool :=
  plaintext == digest.plain

/-- A row of the `user` table (Prisma model `User`). -/
structure User where
  id : String
  username : String
  email : String
  password : BcryptHash
  roles : List Role
  createdAt : Nat
  updatedAt : Nat
  deletedAt : Option Nat
  createdById : Option String
  updatedById : Option String
  deletedById : Option String
deriving DecidableEq, Repr

/-- The `UserSummary` projection `{ id, username, email }`. -/
structure UserSummary where
  id : String
  username : String
  email : String
deriving DecidableEq, Repr

/-- The `{ select: { id, username, email } }` projection of a row. -/
def User.toSummary (u : User) : UserSummary :=
  ⟨u.id, u.username, u.email⟩

/-- The authenticated principal threaded through every user operation
(`CurrentUser` interface); only `id` and `roles` are consulted by the service. -/
structure CurrentUser where
  id : String
  username : String
  email : String
  roles : List Role
deriving DecidableEq, Repr

/-- Modelled from the spec: `hasRoles` from `src/helpers` (file absent from the
sources) — §4.4: "Any role-set containing Admin ⇒ predicate accepts all
records". Call sites pass `[Role.Admin]`; the helper checks the required roles
are all held. -/
def hasRoles (userRoles required : List Role) : Bool :=
  required.all (fun r => userRoles.contains r)

/-- A JS value as it appears in a response object field. -/
inductive Val where
  | str : String → Val
  | time : Nat → Val
  | hash : BcryptHash → Val
  | roleList : List Role → Val
  | summary : UserSummary → Val
  | null : Val
deriving DecidableEq, Repr

/-- A serialized JS object: an association list of field name to value. -/
abbrev JsObj := List (String × Val)

/-- Property read `obj[key]`; `none` is JS `undefined`. -/
def jsGet (obj : JsObj) (key : String) : Option Val :=
  (obj.find? (fun kv => kv.1 == key)).map (fun kv => kv.2)

/-- Whether the object has the given own property. -/
def jsHas (obj : JsObj) (key : String) : Bool :=
  obj.any (fun kv => kv.1 == key)

/-- JS truthiness of a field value (`null`, `undefined` and `''` are falsy;
dates, digests, arrays and objects are truthy). -/
def truthy : Option Val → Bool
  | none => false
  | some .null => false
  | some (.str s) => !s.isEmpty
  | some (.time _) => true
  | some (.hash _) => true
  | some (.roleList _) => true
  | some (.summary _) => true

namespace ObjectManipulator

/-- Modelled from the spec: `ObjectManipulator.exclude` from `src/helpers`
(file absent from the sources) — strips the named fields from an object
(§4.6: "strips sensitive/internal fields from the echoed response"). -/
def exclude (obj : JsObj) (keys : List String) : JsObj :=
  obj.filter (fun kv => !(keys.contains kv.1))

/-- Modelled from the spec: `ObjectManipulator.safeDelete` from `src/helpers`
(file absent from the sources) — deletes one property if present. -/
def safeDelete (obj : JsObj) (key : String) : JsObj :=
  obj.filter (fun kv => kv.1 != key)

end ObjectManipulator

/-- Error statuses used by the services (`HttpStatus` subset). -/
inductive Status where
  | notFound
  | unauthorized
  | conflict
  | badRequest
deriving DecidableEq, Repr

/-- An `RpcException` payload `{ status, message }`. -/
structure RpcErr where
  status : Status
  message : String
deriving DecidableEq, Repr

/-- Modelled from the spec: errors observed by a `catch` block are either a
thrown `RpcException` or some other (store-level / unexpected) error (§7). -/
inductive Thrown where
  | rpc : RpcErr → Thrown
  | other : String → Thrown
deriving DecidableEq, Repr

/-- Modelled from the spec: `handleException` from `src/helpers` (file absent
from the sources) — §7: store-level and unexpected errors are re-surfaced as a
generic BadRequest with the operation message "unless specifically classified";
classified `RpcException`s propagate unchanged (the unit tests assert the
Conflict thrown inside `remove` reaches the caller intact). -/
def handleException (t : Thrown) (message : String) : RpcErr :=
  match t with
  | .rpc e => e
  | .other _ => ⟨.badRequest, message⟩

/-- Resolution of one self-reference column under `USER_INCLUDE`
(`select: { id, username, email }` on the referenced row, `null` when the
column is null or dangling). -/
def resolveRef (db : List User) (refId : Option String) : Val :=
  match refId.bind (fun i => db.find? (fun u => u.id == i)) with
  | some u => .summary u.toSummary
  | none => .null

/-- Optional string column as a JS value. -/
def optStr : Option String → Val
  | some s => .str s
  | none => .null

/-- Optional timestamp column as a JS value. -/
def optTime : Option Nat → Val
  | some t => .time t
  | none => .null

/-- The scalar columns of a row as a JS object (what `findFirst` returns with
no `include`/`select` clause). -/
def userRow (u : User) : JsObj :=
  [("id", .str u.id), ("username", .str u.username), ("email", .str u.email),
   ("password", .hash u.password), ("roles", .roleList u.roles),
   ("createdAt", .time u.createdAt), ("updatedAt", .time u.updatedAt),
   ("deletedAt", optTime u.deletedAt),
   ("createdById", optStr u.createdById), ("updatedById", optStr u.updatedById),
   ("deletedById", optStr u.deletedById)]

/-- A row fetched with `USER_INCLUDE`: the scalar columns plus the three
self-references resolved to summaries. -/
def userWithInclude (db : List User) (u : User) : JsObj :=
  userRow u ++
    [("createdBy", resolveRef db u.createdById),
     ("updatedBy", resolveRef db u.updatedById),
     ("deletedBy", resolveRef db u.deletedById)]

/-- `const EXCLUDE_FIELDS: (keyof User)[] = ['password', 'createdById', 'updatedById', 'deletedById']` -/
def EXCLUDE_FIELDS : List String :=
  ["password", "createdById", "updatedById", "deletedById"]

/-- A sanitized outward response object. -/
abbrev UserResponse := JsObj

namespace UserService

/-- `private excludeFields(user)` — `ObjectManipulator.exclude(user, EXCLUDE_FIELDS)`. -/
def excludeFields (user : JsObj) : UserResponse :=
  ObjectManipulator.exclude user EXCLUDE_FIELDS

/-- `UserService.findOne(id, currentUser)` (current revision):
admin `where = { id }`, non-admin `where = { id, deletedAt: null }`;
NotFound when no row matches; otherwise the sanitized included row. -/
def findOne (db : List User) (id : String) (currentUser : CurrentUser) :
    Except RpcErr UserResponse :=
  let isAdmin := hasRoles currentUser.roles [Role.Admin]
  let user := if isAdmin then db.find? (fun u => u.id == id)
              else db.find? (fun u => u.id == id && u.deletedAt == none)
  match user with
  | none => .error ⟨.notFound, s!"User with id {id} not found"⟩
  | some u => .ok (excludeFields (userWithInclude db u))

/-- `UserService.findByUsername(username, currentUser)` (current revision). -/
def findByUsername (db : List User) (username : String) (currentUser : CurrentUser) :
    Except RpcErr UserResponse :=
  let idAdmin := hasRoles currentUser.roles [Role.Admin]
  let user := if idAdmin then db.find? (fun u => u.username == username)
              else db.find? (fun u => u.username == username && u.deletedAt == none)
  match user with
  | none => .error ⟨.notFound, s!"User with username {username} not found"⟩
  | some u => .ok (excludeFields (userWithInclude db u))

/-- `UserService.findOneWithSummary(id, currentUser)` (current revision):
same visibility rule, `select: { id, username, email }`. -/
def findOneWithSummary (db : List User) (id : String) (currentUser : CurrentUser) :
    Except RpcErr UserSummary :=
  let idAdmin := hasRoles currentUser.roles [Role.Admin]
  let user := if idAdmin then db.find? (fun u => u.id == id)
              else db.find? (fun u => u.id == id && u.deletedAt == none)
  match user with
  | none => .error ⟨.notFound, s!"User with id {id} not found"⟩
  | some u => .ok u.toSummary

end UserService

/-- `PaginationDto { page, limit }` (positive integers per validation). -/
structure PaginationDto where
  page : Nat
  limit : Nat
deriving DecidableEq, Repr

/-- The `meta` part of a `ListResponse`. -/
structure ListMeta where
  total : Nat
  page : Nat
  lastPage : Nat
deriving DecidableEq, Repr

/-- `ListResponse<User>`: `{ meta: { total, page, lastPage }, data }`. -/
structure ListResponse where
  meta : ListMeta
  data : List UserResponse
deriving DecidableEq, Repr

/-- `orderBy: { createdAt: 'desc' }` — the filtered rows sorted
newest-created-first. -/
def sortByCreatedAtDesc (l : List User) : List User :=
  List.insertionSort (fun a b => b.createdAt ≤ a.createdAt) l

/-- `Math.ceil(total / limit)` on naturals (exact for `limit > 0`). -/
def jsMathCeilDiv (total limit : Nat) : Nat :=
  (total + limit - 1) / limit

/-- The character pool of `generateRandomPassword`. -/
def passwordChars : String :=
  "ABCDEFGHIJKLMNOPQRSTUVWXYZabcdefghijklmnopqrstuvwxyz0123456789"

/-- JS `s.charAt(i)`: one-character string, or `''` out of range. -/
def jsCharAt (s : String) (i : Nat) : String :=
  ((s.toList.drop i).take 1).asString

/-- Modelled from the spec: `CreateUserDto` (dto file absent from the sources)
— §4.6 `create(input)`: username, email, roles required; password and
createdById optional. -/
structure CreateUserDto where
  username : String
  email : String
  roles : List Role
  password : Option String
  createdById : Option String
deriving DecidableEq, Repr

/-- Modelled from the spec: `UpdateUserDto = PartialType(CreateUserDto)` plus
the target `id` — the optional fields a partial update may carry (the password
column is typed as a digest in this model, so a partial plaintext-password
update is out of scope; no claim exercises it). -/
structure UpdateUserDto where
  id : String
  username : Option String
  email : Option String
  roles : Option (List Role)
deriving DecidableEq, Repr

/-- A value held in the response cache: the exact response object a cached
lookup produced (`UserResponse`, `UserSummary`, or a summary batch). -/
inductive CacheVal where
  | resp : UserResponse → CacheVal
  | oneSummary : UserSummary → CacheVal
  | manySummaries : List UserSummary → CacheVal
deriving DecidableEq, Repr

/-- The key-value response cache (`cacheManager`). -/
abbrev Cache := List (String × CacheVal)

/-- `cacheManager.get(key)`. -/
def cacheGet (c : Cache) (key : String) : Option CacheVal :=
  (c.find? (fun kv => kv.1 == key)).map (fun kv => kv.2)

/-- `cacheManager.set(key, value)`. -/
def cacheSet (c : Cache) (key : String) (v : CacheVal) : Cache :=
  (key, v) :: c.filter (fun kv => kv.1 != key)

/-- The shared mutable state: the `user` table and the response cache. -/
structure AppState where
  db : List User
  cache : Cache
deriving DecidableEq, Repr

/-- Prisma `user.update({ where: { id }, data })`: rewrite the (unique) row
with the given id, returning the updated row; `none` models the P2025 throw
when no row matches. -/
def prismaUpdate (db : List User) (id : String) (f : User → User) :
    Option (User × List User) :=
  match db.find? (fun u => u.id == id) with
  | none => none
  | some u => some (f u, db.map (fun v => if v.id == id then f v else v))

namespace UserService

/-- `private generateRandomPassword(length = 6)`: the loop
`generatedPassword += chars.charAt(Math.floor(Math.random() * chars.length))`,
with the stream of drawn indices `Math.floor(Math.random() * 62)` made an
explicit argument `rands` (each value is below 62). -/
def generateRandomPassword (rands : Nat → Nat) (len : Nat) : String :=
  (List.range len).foldl (fun acc i => acc ++ jsCharAt passwordChars (rands i)) ""

/-- `UserService.findAll(pagination, user)` (current revision): role-based
`where`, `findMany` with `skip`/`take`/`orderBy createdAt desc` and
`USER_INCLUDE`, `count` on the same `where`, `lastPage = Math.ceil(total/limit)`,
items sanitized by `excludeFields`. -/
def findAll (db : List User) (pagination : PaginationDto) (user : CurrentUser) :
    ListResponse :=
  let isAdmin := hasRoles user.roles [Role.Admin]
  let filtered := if isAdmin then db else db.filter (fun u => u.deletedAt == none)
  let data := (sortByCreatedAtDesc filtered).drop ((pagination.page - 1) * pagination.limit)
    |>.take pagination.limit
  let total := filtered.length
  let lastPage := jsMathCeilDiv total pagination.limit
  { meta := ⟨total, pagination.page, lastPage⟩,
    data := data.map (fun item => excludeFields (userWithInclude db item)) }

end UserService

namespace UserService

/-- The partial-field merge `data: { ...data, updatedById: currentUser.id }`
applied by `update` to the stored row. -/
def applyUpdateData (u : User) (dto : UpdateUserDto) (updaterId : String) : User :=
  { u with
    username := dto.username.getD u.username
    email := dto.email.getD u.email
    roles := dto.roles.getD u.roles
    updatedById := some updaterId }

/-- `UserService.create(createUserDto)` (current revision): uses the supplied
password unless it is absent or falsy (then `generateRandomPassword()`), hashes
it with cost 10, inserts the row (`newId` and `now` stand for the
store-generated uuid and timestamps), clears the whole cache, and returns the
sanitized row with the plaintext password re-attached. The P2002
uniqueness-conflict branch is not modelled (the store insert is total here);
no claim exercises it. -/
def create (st : AppState) (dto : CreateUserDto) (rands : Nat → Nat)
    (newId : String) (now : Nat) : Except RpcErr UserResponse × AppState :=
  let userPassword :=
    match dto.password with
    | some p => if p.isEmpty then generateRandomPassword rands 6 else p
    | none => generateRandomPassword rands 6
  let hashedPassword := bcryptHashSync userPassword 10
  let newUser : User :=
    { id := newId, username := dto.username, email := dto.email,
      password := hashedPassword, roles := dto.roles,
      createdAt := now, updatedAt := now, deletedAt := none,
      createdById := dto.createdById, updatedById := none, deletedById := none }
  let db2 := st.db ++ [newUser]
  let cleanUser := excludeFields (userWithInclude db2 newUser)
  (.ok (cleanUser ++ [("password", .str userPassword)]), { db := db2, cache := [] })

/-- `UserService.update(updateUserDto, currentUser)` (current revision):
`findOne` first (visibility check), then `user.update` stamping
`updatedById`, then `clearCache()`; the `catch` wraps every error —
including the NotFound from `findOne` — as BadRequest "Error updating the user". -/
def update (st : AppState) (dto : UpdateUserDto) (currentUser : CurrentUser) :
    Except RpcErr UserResponse × AppState :=
  match findOne st.db dto.id currentUser with
  | .error _ => (.error ⟨.badRequest, "Error updating the user"⟩, st)
  | .ok _ =>
    match prismaUpdate st.db dto.id (fun u => applyUpdateData u dto currentUser.id) with
    | none => (.error ⟨.badRequest, "Error updating the user"⟩, st)
    | some (row, db2) =>
      (.ok (excludeFields (userWithInclude db2 row)), { db := db2, cache := [] })

/-- `UserService.remove(id, currentUser)` (current revision): `findOne`, then
Conflict if the response's `deletedAt` is truthy, else `user.update` setting
`deletedAt`/`deletedById` and `clearCache()`; the `catch` routes every error
through `handleException` (classified errors propagate). -/
def remove (st : AppState) (id : String) (currentUser : CurrentUser) (now : Nat) :
    Except RpcErr UserResponse × AppState :=
  match findOne st.db id currentUser with
  | .error e => (.error (handleException (.rpc e) "Error removing the user"), st)
  | .ok user =>
    if truthy (jsGet user "deletedAt") then
      (.error (handleException
        (.rpc ⟨.conflict, s!"[ERROR] User with id {id} is already disabled"⟩)
        "Error removing the user"), st)
    else
      match prismaUpdate st.db id
          (fun u => { u with deletedAt := some now, deletedById := some currentUser.id }) with
      | none => (.error (handleException (.other "P2025") "Error removing the user"), st)
      | some (row, db2) =>
        (.ok (excludeFields (userWithInclude db2 row)), { db := db2, cache := [] })

/-- `UserService.restore(id, currentUser)` (current revision): `findOne`, then
Conflict if the response's `deletedAt === null`, else `user.update` clearing
`deletedAt`/`deletedById` and stamping `updatedById`, and `clearCache()`. -/
def restore (st : AppState) (id : String) (currentUser : CurrentUser) :
    Except RpcErr UserResponse × AppState :=
  match findOne st.db id currentUser with
  | .error e => (.error (handleException (.rpc e) "Error restoring the user"), st)
  | .ok user =>
    if jsGet user "deletedAt" == some .null then
      (.error (handleException
        (.rpc ⟨.conflict, s!"[ERROR] User with id {id} is already enabled"⟩)
        "Error restoring the user"), st)
    else
      match prismaUpdate st.db id
          (fun u => { u with deletedAt := none, deletedById := none,
                             updatedById := some currentUser.id }) with
      | none => (.error (handleException (.other "P2025") "Error restoring the user"), st)
      | some (row, db2) =>
        (.ok (excludeFields (userWithInclude db2 row)), { db := db2, cache := [] })

end UserService

namespace UserServiceRev2

/-- `UserService.remove` (historical second revision, no cache): same body, but
its `catch` re-throws every error — the Conflict included — as
BadRequest "Error removing the user". -/
def remove (db : List User) (id : String) (currentUser : CurrentUser) (now : Nat) :
    Except RpcErr UserResponse × List User :=
  match UserService.findOne db id currentUser with
  | .error _ => (.error ⟨.badRequest, "Error removing the user"⟩, db)
  | .ok user =>
    if truthy (jsGet user "deletedAt") then
      (.error ⟨.badRequest, "Error removing the user"⟩, db)
    else
      match prismaUpdate db id
          (fun u => { u with deletedAt := some now, deletedById := some currentUser.id }) with
      | none => (.error ⟨.badRequest, "Error removing the user"⟩, db)
      | some (row, db2) => (.ok (UserService.excludeFields (userWithInclude db2 row)), db2)

/-- `UserService.findAll` (historical second revision, user.service.ts
lines 300-323): same role-based `where`, window and
`orderBy: { createdAt: 'desc' }`, but the `findMany` has no `USER_INCLUDE`
and the items are stripped of `password` only — the raw
createdById/updatedById/deletedById columns stay in every item. -/
def findAll (db : List User) (pagination : PaginationDto) (user : CurrentUser) :
    ListResponse :=
  let isAdmin := hasRoles user.roles [Role.Admin]
  let filtered := if isAdmin then db else db.filter (fun u => u.deletedAt == none)
  let data := (sortByCreatedAtDesc filtered).drop
      ((pagination.page - 1) * pagination.limit)
    |>.take pagination.limit
  let total := filtered.length
  let lastPage := jsMathCeilDiv total pagination.limit
  { meta := ⟨total, pagination.page, lastPage⟩,
    data := data.map (fun item => ObjectManipulator.exclude (userRow item) ["password"]) }

end UserServiceRev2

namespace UsersService

/-- `UsersService.findAll(paginationDto, user)` (users.service.ts lines
53-70): same role-based `where` and `Math.ceil` lastPage, but the `findMany`
has **no `orderBy` clause** — the rows come back in the store's (unspecified)
order, modelled as table order — no `include`, and the items are stripped of
`password` only. -/
def findAll (db : List User) (paginationDto : PaginationDto)
    (user : CurrentUser) : ListResponse :=
  let isAdmin := hasRoles user.roles [Role.Admin]
  let filtered := if isAdmin then db else db.filter (fun u => u.deletedAt == none)
  let data := (filtered.drop ((paginationDto.page - 1) * paginationDto.limit))
    |>.take paginationDto.limit
  let total := filtered.length
  let lastPage := jsMathCeilDiv total paginationDto.limit
  { meta := ⟨total, paginationDto.page, lastPage⟩,
    data := data.map (fun item => ObjectManipulator.exclude (userRow item) ["password"]) }

end UsersService

/-- The `JwtPayload` interface `{ id }` handed to `signToken`. -/
structure JwtPayload where
  id : String
deriving DecidableEq, Repr

/-- Modelled from the spec: a signed token (§4.3) embeds the subject id and
the `iat`/`exp` claims, bound to the signing secret; signing is deterministic,
so two tokens are the same string exactly when all four agree. -/
structure SignedToken where
  id : String
  iat : Nat
  exp : Nat
  secret : String
deriving DecidableEq, Repr

/-- Modelled from the spec: `jwtService.sign(payload, { expiresIn })` (§4.3
`issue`): embeds `{id, issuedAt, expiresAt}` under the shared secret. -/
def jwtSign (payload : JwtPayload) (secret : String) (now expiresIn : Nat) :
    SignedToken :=
  ⟨payload.id, now, now + expiresIn, secret⟩

/-- Modelled from the spec: `jwtService.verify(token, { secret })` (§4.3
`verify`): fails when the signature does not match or the token is expired,
otherwise yields the raw claims `(id, iat, exp)`. -/
def jwtVerify (t : SignedToken) (secret : String) (now : Nat) :
    Option (String × Nat × Nat) :=
  if t.secret == secret && now < t.exp then some (t.id, t.iat, t.exp) else none

/-- The default `expiresIn = '4h'` of `signToken`, in seconds. -/
def fourHours : Nat := 14400

/-- `AuthResponse { user, token }`. -/
structure AuthResponse where
  user : JsObj
  token : SignedToken
deriving DecidableEq, Repr

namespace AuthService

/-- `private signToken(payload, expiresIn = '4h')`. -/
def signToken (payload : JwtPayload) (secret : String) (now : Nat) : SignedToken :=
  jwtSign payload secret now fourHours

/-- `AuthService.login(loginDto)` (first revision): `findFirst({ where:
{ username } })` with no deletedAt filter, `bcrypt.compareSync`, Unauthorized
"Invalid credentials" on either failure, `safeDelete(user, 'password')`, then
a fresh token. The surrounding `catch` re-throws whatever was thrown as
BadRequest with the original message. -/
def login (db : List User) (username password : String) (secret : String)
    (now : Nat) : Except RpcErr AuthResponse :=
  let body : Except RpcErr AuthResponse :=
    match db.find? (fun u => u.username == username) with
    | none => .error ⟨.unauthorized, "Invalid credentials"⟩
    | some user =>
      if bcryptCompareSync password user.password then
        .ok ⟨ObjectManipulator.safeDelete (userRow user) "password",
             signToken ⟨user.id⟩ secret now⟩
      else .error ⟨.unauthorized, "Invalid credentials"⟩
  match body with
  | .error e => .error ⟨.badRequest, e.message⟩
  | .ok r => .ok r

/-- `AuthService.verifyToken(token)` (first revision): verify the signature and
expiry, strip the `exp`/`iat` claims, `findFirst({ where: { id } })` with no
deletedAt filter, and re-issue a fresh token; every failure surfaces as
Unauthorized "Invalid token" (the `catch` re-wraps with exactly that shape).
The found row is returned as-is — `excludeFields` is not applied. -/
def verifyToken (db : List User) (token : SignedToken) (secret : String)
    (now : Nat) : Except RpcErr AuthResponse :=
  match jwtVerify token secret now with
  | none => .error ⟨.unauthorized, "Invalid token"⟩
  | some (id, _, _) =>
    match db.find? (fun u => u.id == id) with
    | none => .error ⟨.unauthorized, "Invalid token"⟩
    | some user => .ok ⟨userRow user, signToken ⟨user.id⟩ secret now⟩

end AuthService

/-- Modelled from the spec: `ExceptionHandler.process` from `src/helpers`
(file absent from the sources) — §7: classified `RpcException`s are re-surfaced
to the caller unchanged; store-level and unexpected errors become a generic
BadRequest. -/
def exHandlerProcess (t : Thrown) : RpcErr :=
  match t with
  | .rpc e => e
  | .other m => ⟨.badRequest, m⟩

namespace AuthServiceRev2

/-- `AuthService.login(loginDto)` (second revision): same body with the
"[ERROR] Invalid credentials" message, but the `catch` hands the error to
`ExceptionHandler.process`, so the Unauthorized propagates unchanged. -/
def login (db : List User) (username password : String) (secret : String)
    (now : Nat) : Except RpcErr AuthResponse :=
  let body : Except RpcErr AuthResponse :=
    match db.find? (fun u => u.username == username) with
    | none => .error ⟨.unauthorized, "[ERROR] Invalid credentials"⟩
    | some user =>
      if bcryptCompareSync password user.password then
        .ok ⟨ObjectManipulator.safeDelete (userRow user) "password",
             AuthService.signToken ⟨user.id⟩ secret now⟩
      else .error ⟨.unauthorized, "[ERROR] Invalid credentials"⟩
  match body with
  | .error e => .error (exHandlerProcess (.rpc e))
  | .ok r => .ok r

end AuthServiceRev2

/-- `isUUID(id)` from class-validator with no version argument: the 'all'
pattern `/^[0-9A-F]\x7b8\x7d-[0-9A-F]\x7b4\x7d-[0-9A-F]\x7b4\x7d-[0-9A-F]\x7b4\x7d-[0-9A-F]\x7b12\x7d$/i`. -/
def isUUID (s : String) : Bool :=
  let cs := s.toList
  let isHex := fun (c : Char) =>
    c.isDigit || ('a' ≤ c && c ≤ 'f') || ('A' ≤ c && c ≤ 'F')
  cs.length == 36 &&
    (List.range 36).all (fun i =>
      let c := cs.getD i ' '
      if i == 8 || i == 13 || i == 18 || i == 23 then c == '-' else isHex c)

namespace UserController

/-- `private getCachedResponse(cacheKey, fetchFunction)` specialised to the
`'users.find.id'` handler: BadRequest on a malformed uuid, else return the
cached response under `user:id:{id}` if present, else compute
`UserService.findOne` and cache the (successful) response under that key.
(A cached value of a different shape cannot arise under these keys; it is
treated as a miss.) -/
def findOne (st : AppState) (id : String) (user : CurrentUser) :
    Except RpcErr UserResponse × AppState :=
  if !(isUUID id) then (.error ⟨.badRequest, "Invalid user ID"⟩, st)
  else
    let key := s!"user:id:{id}"
    match cacheGet st.cache key with
    | some (.resp r) => (.ok r, st)
    | _ =>
      match UserService.findOne st.db id user with
      | .error e => (.error e, st)
      | .ok r => (.ok r, { st with cache := cacheSet st.cache key (.resp r) })

end UserController

/-- First-match search: if `u` is in `l`, satisfies `p`, and is the only
element of `l` satisfying `p`, then `find?` returns it. -/
theorem find_eq_some_of_unique {α : Type} (p : α → Bool) (l : List α) (u : α)
    (hmem : u ∈ l) (hp : p u = true) (huniq : ∀ v ∈ l, p v = true → v = u) :
    l.find? p = some u := by
  induction l with
  | nil => cases hmem
  | cons a t ih =>
    by_cases ha : p a = true
    · have : a = u := huniq a (List.mem_cons_self a t) ha
      subst this
      simp [List.find?, ha, hp]
    · have hau : a ≠ u := fun h => ha (h ▸ hp)
      have hmem2 : u ∈ t := by
        cases hmem with
        | head => exact absurd rfl hau
        | tail _ h => exact h
      have := ih hmem2 (fun v hv hpv => huniq v (List.mem_cons_of_mem a hv) hpv)
      simp only [List.find?]
      rw [Bool.not_eq_true] at ha
      simp [ha, this]

instance {ε α : Type} [DecidableEq ε] [DecidableEq α] : DecidableEq (Except ε α) := fun x y =>
  match x, y with
  | .ok a, .ok b => decidable_of_iff (a = b) (by simp)
  | .ok _, .error _ => .isFalse (by simp)
  | .error _, .ok _ => .isFalse (by simp)
  | .error e, .error f => decidable_of_iff (e = f) (by simp)

/-! ### Concrete sample data for witnesses and counterexamples -/

/-- The signing secret used in concrete scenarios. -/
def secret0 : String := "jwt-secret"

/-- A fixed uuid for the admin account. -/
def aliceId : String := "11111111-1111-1111-1111-111111111111"

/-- A fixed uuid for the soft-deleted account. -/
def bobId : String := "22222222-2222-2222-2222-222222222222"

/-- An active admin account (self-created, so its raw `createdById` column is
non-null). -/
def alice : User :=
  { id := aliceId, username := "alice", email := "alice@mail.com",
    password := bcryptHashSync "Alpha@1" 10, roles := [Role.Admin],
    createdAt := 10, updatedAt := 10, deletedAt := none,
    createdById := some aliceId, updatedById := none, deletedById := none }

/-- A soft-deleted plain-user account (disabled by alice at time 50). -/
def bob : User :=
  { id := bobId, username := "bob", email := "bob@mail.com",
    password := bcryptHashSync "Bravo@2" 10, roles := [Role.User],
    createdAt := 20, updatedAt := 20, deletedAt := some 50,
    createdById := some aliceId, updatedById := none, deletedById := some aliceId }

/-- A two-row store: one active admin, one soft-deleted user. -/
def dbSample : List User := [alice, bob]

/-- Alice's identity as a request principal (Admin role). -/
def adminCU : CurrentUser := ⟨aliceId, "alice", "alice@mail.com", [Role.Admin]⟩

/-- A non-admin principal (plain User role). -/
def userCU : CurrentUser :=
  ⟨"33333333-3333-3333-3333-333333333333", "carol", "carol@mail.com", [Role.User]⟩

/-- The `i`-th of the 25 active sample rows (creation time `i`). -/
def mkUser (i : Nat) : User :=
  { id := toString i, username := "user" ++ toString i,
    email := "user" ++ toString i ++ "@mail.com",
    password := bcryptHashSync "Secret@1" 10, roles := [Role.User],
    createdAt := i, updatedAt := i, deletedAt := none,
    createdById := none, updatedById := none, deletedById := none }

/-- A 25-row store of active users with pairwise distinct creation times. -/
def db25 : List User := (List.range 25).map mkUser

/-- A token for alice issued at time 0 with the 4-hour window. -/
def tokAlice : SignedToken := ⟨aliceId, 0, fourHours, secret0⟩

/-! ### Claim C1 -/

/-- **C1.** For every identity whose role set does not contain Admin, calling
`findOne`, `findByUsername`, or `findOneWithSummary` on a record whose
`deletedAt` is non-null fails with NotFound; for every identity whose role set
contains Admin, the same call on the same record returns the record.
(`huid`/`huname` are the store's primary-key and unique-index invariants.) -/
theorem soft_deleted_visibility (db : List User) (cu : CurrentUser) (u : User)
    (t : Nat) (hmem : u ∈ db)
    (huid : ∀ v ∈ db, v.id = u.id → v = u)
    (huname : ∀ v ∈ db, v.username = u.username → v = u)
    (hdel : u.deletedAt = some t) :
    (hasRoles cu.roles [Role.Admin] = false →
      UserService.findOne db u.id cu =
        .error ⟨.notFound, s!"User with id {u.id} not found"⟩ ∧
      UserService.findByUsername db u.username cu =
        .error ⟨.notFound, s!"User with username {u.username} not found"⟩ ∧
      UserService.findOneWithSummary db u.id cu =
        .error ⟨.notFound, s!"User with id {u.id} not found"⟩) ∧
    (hasRoles cu.roles [Role.Admin] = true →
      UserService.findOne db u.id cu =
        .ok (UserService.excludeFields (userWithInclude db u)) ∧
      UserService.findByUsername db u.username cu =
        .ok (UserService.excludeFields (userWithInclude db u)) ∧
      UserService.findOneWithSummary db u.id cu = .ok u.toSummary) := by
  constructor
  · intro hna
    have hid : db.find? (fun v => v.id == u.id && v.deletedAt == none) = none := by
      rw [List.find?_eq_none]
      intro v hv hpv
      simp only [Bool.and_eq_true, beq_iff_eq] at hpv
      have := huid v hv hpv.1
      subst this
      rw [hdel] at hpv
      exact Option.noConfusion hpv.2
    have hun : db.find? (fun v => v.username == u.username && v.deletedAt == none) = none := by
      rw [List.find?_eq_none]
      intro v hv hpv
      simp only [Bool.and_eq_true, beq_iff_eq] at hpv
      have := huname v hv hpv.1
      subst this
      rw [hdel] at hpv
      exact Option.noConfusion hpv.2
    refine ⟨?_, ?_, ?_⟩
    · simp [UserService.findOne, hna, hid]
    · simp [UserService.findByUsername, hna, hun]
    · simp [UserService.findOneWithSummary, hna, hid]
  · intro ha
    have hid : db.find? (fun v => v.id == u.id) = some u :=
      find_eq_some_of_unique _ db u hmem (by simp)
        (fun v hv hpv => huid v hv (by simpa using hpv))
    have hun : db.find? (fun v => v.username == u.username) = some u :=
      find_eq_some_of_unique _ db u hmem (by simp)
        (fun v hv hpv => huname v hv (by simpa using hpv))
    refine ⟨?_, ?_, ?_⟩
    · simp [UserService.findOne, ha, hid]
    · simp [UserService.findByUsername, ha, hun]
    · simp [UserService.findOneWithSummary, ha, hid]

/-- Witness for C1: in the concrete two-row store, the non-admin caller gets
NotFound for the soft-deleted `bob`, while the admin caller gets the record. -/
theorem soft_deleted_visibility_witness :
    UserService.findOne dbSample bob.id userCU =
      .error ⟨.notFound, "User with id 22222222-2222-2222-2222-222222222222 not found"⟩ ∧
    UserService.findOne dbSample bob.id adminCU =
      .ok (UserService.excludeFields (userWithInclude dbSample bob)) := by
  have hna := soft_deleted_visibility dbSample userCU bob 50 (by decide)
    (by decide) (by decide) (by decide)
  have ha := soft_deleted_visibility dbSample adminCU bob 50 (by decide)
    (by decide) (by decide) (by decide)
  exact ⟨(hna.1 (by decide)).1, (ha.2 (by decide)).1⟩

/-! ### Claim C2 -/

/-- Bad credentials: the username matches no stored user, or the supplied
password does not verify against the matched user's stored hash. -/
def badCredentials (db : List User) (username password : String) : Bool :=
  match db.find? (fun v => v.username == username) with
  | none => true
  | some u => !(bcryptCompareSync password u.password)

/-- Counterexample to C2 as stated: in the first-revision `login`, the `catch`
re-throws the Unauthorized as a BadRequest carrying the original message, so a
login with an unknown username fails BadRequest, not Unauthorized. -/
theorem login_unauthorized_cex :
    AuthService.login dbSample "ghost" "pw" secret0 0 =
      .error ⟨.badRequest, "Invalid credentials"⟩ ∧
    ∀ m : String, AuthService.login dbSample "ghost" "pw" secret0 0 ≠
      .error ⟨.unauthorized, m⟩ := by
  have h : AuthService.login dbSample "ghost" "pw" secret0 0 =
      .error ⟨.badRequest, "Invalid credentials"⟩ := by decide
  refine ⟨h, ?_⟩
  intro m hm
  have : (⟨.badRequest, "Invalid credentials"⟩ : RpcErr) = ⟨.unauthorized, m⟩ :=
    Except.error.inj (h.symm.trans hm)
  exact Status.noConfusion (congrArg RpcErr.status this)

/-- **C2 (amended).** On bad credentials (unknown username or non-verifying
password) the second-revision `login` fails Unauthorized; the first-revision
`login` throws the same Unauthorized internally but its catch-all re-surfaces
it as a BadRequest whose message is still "Invalid credentials". -/
theorem login_bad_credentials (db : List User) (username password secret : String)
    (now : Nat) (hbad : badCredentials db username password = true) :
    AuthServiceRev2.login db username password secret now =
      .error ⟨.unauthorized, "[ERROR] Invalid credentials"⟩ ∧
    AuthService.login db username password secret now =
      .error ⟨.badRequest, "Invalid credentials"⟩ := by
  cases hfind : db.find? (fun v => v.username == username) with
  | none =>
    constructor
    · simp [AuthServiceRev2.login, hfind, exHandlerProcess]
    · simp [AuthService.login, hfind]
  | some u =>
    rw [badCredentials, hfind, Bool.not_eq_true'] at hbad
    constructor
    · simp [AuthServiceRev2.login, hfind, hbad, exHandlerProcess]
    · simp [AuthService.login, hfind, hbad]

/-- Witness for C2 (amended): a wrong password for the stored `bob` account. -/
theorem login_bad_credentials_witness :
    badCredentials dbSample "bob" "wrong-pw" = true ∧
    AuthServiceRev2.login dbSample "bob" "wrong-pw" secret0 7 =
      .error ⟨.unauthorized, "[ERROR] Invalid credentials"⟩ ∧
    AuthService.login dbSample "bob" "wrong-pw" secret0 7 =
      .error ⟨.badRequest, "Invalid credentials"⟩ := by
  have h := login_bad_credentials dbSample "bob" "wrong-pw" secret0 7 (by decide)
  exact ⟨by decide, h.1, h.2⟩

/-! ### Claim C3 -/

/-- The sanitized included row still carries the `deletedAt` column. -/
theorem jsGet_sanitized_deletedAt (db : List User) (u : User) :
    jsGet (UserService.excludeFields (userWithInclude db u)) "deletedAt" =
      some (optTime u.deletedAt) := by
  simp [jsGet, UserService.excludeFields, ObjectManipulator.exclude,
    userWithInclude, userRow, EXCLUDE_FIELDS, List.find?]

/-- Success of `findOne` for an admin caller on a unique-id row. -/
theorem findOne_admin_ok (db : List User) (cu : CurrentUser) (u : User)
    (hmem : u ∈ db) (huid : ∀ v ∈ db, v.id = u.id → v = u)
    (ha : hasRoles cu.roles [Role.Admin] = true) :
    UserService.findOne db u.id cu =
      .ok (UserService.excludeFields (userWithInclude db u)) := by
  have hid : db.find? (fun v => v.id == u.id) = some u :=
    find_eq_some_of_unique _ db u hmem (by simp)
      (fun v hv hpv => huid v hv (by simpa using hpv))
  simp [UserService.findOne, ha, hid]

/-- Success of `findOne` for any caller on an active unique-id row. -/
theorem findOne_active_ok (db : List User) (cu : CurrentUser) (u : User)
    (hmem : u ∈ db) (huid : ∀ v ∈ db, v.id = u.id → v = u)
    (hact : u.deletedAt = none) :
    UserService.findOne db u.id cu =
      .ok (UserService.excludeFields (userWithInclude db u)) := by
  cases ha : hasRoles cu.roles [Role.Admin] with
  | true => exact findOne_admin_ok db cu u hmem huid ha
  | false =>
    have hid : db.find? (fun v => v.id == u.id && v.deletedAt == none) = some u :=
      find_eq_some_of_unique _ db u hmem (by simp [hact])
        (fun v hv hpv => huid v hv (by simp only [Bool.and_eq_true, beq_iff_eq] at hpv; exact hpv.1))
    simp [UserService.findOne, ha, hid]

/-- Counterexample to C3 as stated: a non-admin caller removing the
already-disabled `bob` gets NotFound (the visibility filter hides the record
before the Conflict check can run), not the Conflict the claim promises. -/
theorem remove_conflict_cex :
    (UserService.remove ⟨dbSample, []⟩ bob.id userCU 100).1 =
      .error ⟨.notFound, "User with id 22222222-2222-2222-2222-222222222222 not found"⟩ ∧
    (UserService.remove ⟨dbSample, []⟩ bob.id userCU 100).1 ≠
      .error ⟨.conflict,
        "[ERROR] User with id 22222222-2222-2222-2222-222222222222 is already disabled"⟩ := by
  constructor
  · decide
  · decide

/-- **C3 (amended).** In the current revision: `remove` on an already-disabled
record fails Conflict "already disabled" for an admin caller, but NotFound for
a non-admin caller (the filter hides the disabled record); `restore` on an
already-active record fails Conflict "already enabled" for every caller. In the
historical second revision the `catch` re-wraps the Conflict as BadRequest
"Error removing the user". In every failure case the state is unchanged. -/
theorem remove_restore_state_machine (db : List User) (cache : Cache)
    (cu : CurrentUser) (u : User) (now : Nat)
    (hmem : u ∈ db) (huid : ∀ v ∈ db, v.id = u.id → v = u) :
    (∀ t, u.deletedAt = some t → hasRoles cu.roles [Role.Admin] = true →
      UserService.remove ⟨db, cache⟩ u.id cu now =
        (.error ⟨.conflict, s!"[ERROR] User with id {u.id} is already disabled"⟩,
         ⟨db, cache⟩)) ∧
    (∀ t, u.deletedAt = some t → hasRoles cu.roles [Role.Admin] = false →
      UserService.remove ⟨db, cache⟩ u.id cu now =
        (.error ⟨.notFound, s!"User with id {u.id} not found"⟩, ⟨db, cache⟩)) ∧
    (u.deletedAt = none →
      UserService.restore ⟨db, cache⟩ u.id cu =
        (.error ⟨.conflict, s!"[ERROR] User with id {u.id} is already enabled"⟩,
         ⟨db, cache⟩)) ∧
    (∀ t, u.deletedAt = some t → hasRoles cu.roles [Role.Admin] = true →
      UserServiceRev2.remove db u.id cu now =
        (.error ⟨.badRequest, "Error removing the user"⟩, db)) := by
  refine ⟨?_, ?_, ?_, ?_⟩
  · intro t hdel ha
    have hone := findOne_admin_ok db cu u hmem huid ha
    have hget := jsGet_sanitized_deletedAt db u
    rw [hdel] at hget
    simp [UserService.remove, hone, hget, truthy, optTime, handleException]
  · intro t hdel hna
    have hid : db.find? (fun v => v.id == u.id && v.deletedAt == none) = none := by
      rw [List.find?_eq_none]
      intro v hv hpv
      simp only [Bool.and_eq_true, beq_iff_eq] at hpv
      have := huid v hv hpv.1
      subst this
      rw [hdel] at hpv
      exact Option.noConfusion hpv.2
    have hone : UserService.findOne db u.id cu =
        .error ⟨.notFound, s!"User with id {u.id} not found"⟩ := by
      simp [UserService.findOne, hna, hid]
    simp [UserService.remove, hone, handleException]
  · intro hact
    have hone := findOne_active_ok db cu u hmem huid hact
    have hget := jsGet_sanitized_deletedAt db u
    rw [hact] at hget
    simp [UserService.restore, hone, hget, optTime, handleException]
  · intro t hdel ha
    have hone := findOne_admin_ok db cu u hmem huid ha
    have hget := jsGet_sanitized_deletedAt db u
    rw [hdel] at hget
    simp [UserServiceRev2.remove, hone, hget, truthy, optTime]

/-- Witness for C3 (amended): the admin caller on the concrete store —
`remove` of the disabled `bob` is Conflict, `restore` of the active `alice`
is Conflict, with the state untouched; the second revision turns the former
into BadRequest. -/
theorem remove_restore_state_machine_witness :
    UserService.remove ⟨dbSample, []⟩ bob.id adminCU 100 =
      (.error ⟨.conflict,
        "[ERROR] User with id 22222222-2222-2222-2222-222222222222 is already disabled"⟩,
       ⟨dbSample, []⟩) ∧
    UserService.restore ⟨dbSample, []⟩ alice.id adminCU =
      (.error ⟨.conflict,
        "[ERROR] User with id 11111111-1111-1111-1111-111111111111 is already enabled"⟩,
       ⟨dbSample, []⟩) ∧
    UserServiceRev2.remove dbSample bob.id adminCU 100 =
      (.error ⟨.badRequest, "Error removing the user"⟩, dbSample) := by
  have hb := remove_restore_state_machine dbSample [] adminCU bob 100
    (by decide) (by decide)
  have ha := remove_restore_state_machine dbSample [] adminCU alice 100
    (by decide) (by decide)
  exact ⟨hb.1 50 (by decide) (by decide), ha.2.2.1 (by decide),
    hb.2.2.2 50 (by decide) (by decide)⟩

/-! ### Claim C4 -/

/-- String concatenation concatenates the character lists. -/
theorem string_toList_append (a b : String) :
    (a ++ b).toList = a.toList ++ b.toList := by
  simp [String.toList, String.data_append]

/-- Unfolding one loop iteration of `generateRandomPassword`. -/
theorem generateRandomPassword_succ (rands : Nat → Nat) (n : Nat) :
    UserService.generateRandomPassword rands (n + 1) =
      UserService.generateRandomPassword rands n ++ jsCharAt passwordChars (rands n) := by
  unfold UserService.generateRandomPassword
  rw [List.range_succ, List.foldl_append]
  rfl

/-- `charAt` in range yields a string of one character drawn from `s`. -/
theorem jsCharAt_in_range (s : String) (i : Nat) (h : i < s.toList.length) :
    (jsCharAt s i).toList.length = 1 ∧ ∀ c ∈ (jsCharAt s i).toList, c ∈ s.toList := by
  constructor
  · show ((s.toList.drop i).take 1).length = 1
    rw [List.length_take, List.length_drop]
    omega
  · intro c hc
    have hc2 : c ∈ (s.toList.drop i).take 1 := hc
    exact List.drop_subset i s.toList (List.take_subset 1 _ hc2)

/-- The generated password has exactly the requested length and draws every
character from the 62-character alphanumeric pool, provided every drawn index
is in range (as `Math.floor(Math.random() * 62)` always is). -/
theorem generateRandomPassword_spec (rands : Nat → Nat) :
    ∀ n, (∀ i, i < n → rands i < 62) →
      (UserService.generateRandomPassword rands n).toList.length = n ∧
      ∀ c ∈ (UserService.generateRandomPassword rands n).toList,
        c ∈ passwordChars.toList := by
  intro n
  induction n with
  | zero => intro _; exact ⟨rfl, by intro c hc; cases hc⟩
  | succ m ih =>
    intro h
    have hm := ih (fun i hi => h i (Nat.lt_succ_of_lt hi))
    have hchar := jsCharAt_in_range passwordChars (rands m)
      (by have := h m (Nat.lt_succ_self m); simpa using this)
    rw [generateRandomPassword_succ]
    constructor
    · rw [string_toList_append, List.length_append, hm.1, hchar.1]
    · intro c hc
      rw [string_toList_append, List.mem_append] at hc
      cases hc with
      | inl h1 => exact hm.2 c h1
      | inr h2 => exact hchar.2 c h2

/-- Looking a key up past a chunk that does not contain it. -/
theorem jsGet_append_right (a b : JsObj) (k : String) (h : jsHas a k = false) :
    jsGet (a ++ b) k = jsGet b k := by
  induction a with
  | nil => rfl
  | cons kv t ih =>
    simp only [jsHas, List.any_cons, Bool.or_eq_false_iff] at h
    simp only [jsGet, List.cons_append, List.find?, h.1]
    exact ih (by simp [jsHas, h.2])

/-- The sanitization strips all four excluded columns, whatever the row. -/
theorem jsHas_sanitized (db : List User) (u : User) :
    jsHas (UserService.excludeFields (userWithInclude db u)) "password" = false ∧
    jsHas (UserService.excludeFields (userWithInclude db u)) "createdById" = false ∧
    jsHas (UserService.excludeFields (userWithInclude db u)) "updatedById" = false ∧
    jsHas (UserService.excludeFields (userWithInclude db u)) "deletedById" = false := by
  refine ⟨?_, ?_, ?_, ?_⟩ <;>
    simp [jsHas, UserService.excludeFields, ObjectManipulator.exclude,
      userWithInclude, userRow, EXCLUDE_FIELDS]

/-- **C4.** A `create` that omits the password answers with a `password` field
that is the 6-character generated string, each character drawn from
[A-Za-z0-9], and the hash persisted on the new row verifies against exactly
that string (and no other). -/
theorem create_generated_password (st : AppState) (dto : CreateUserDto)
    (rands : Nat → Nat) (newId : String) (now : Nat)
    (hnone : dto.password = none) (hr : ∀ i, i < 6 → rands i < 62) :
    ∃ resp st2, UserService.create st dto rands newId now = (.ok resp, st2) ∧
      jsGet resp "password" =
        some (.str (UserService.generateRandomPassword rands 6)) ∧
      (UserService.generateRandomPassword rands 6).toList.length = 6 ∧
      (∀ c ∈ (UserService.generateRandomPassword rands 6).toList,
        c ∈ passwordChars.toList) ∧
      ∃ u ∈ st2.db, u.id = newId ∧
        ∀ q : String, bcryptCompareSync q u.password = true ↔
          q = UserService.generateRandomPassword rands 6 := by
  obtain ⟨un, em, rl, pwf, cb⟩ := dto
  simp only at hnone
  subst hnone
  have hgen := generateRandomPassword_spec rands 6 hr
  refine ⟨_, _, rfl, ?_, hgen.1, hgen.2, ?_⟩
  · rw [jsGet_append_right _ _ _ (jsHas_sanitized _ _).1]
    simp [jsGet]
  · refine ⟨_, List.mem_append_right _ (List.mem_singleton_self _), rfl, ?_⟩
    intro q
    simp [bcryptCompareSync, bcryptHashSync]

/-- The concrete create input with no password. -/
def dtoDave : CreateUserDto :=
  ⟨"dave", "dave@mail.com", [Role.User], none, some aliceId⟩

/-- Witness for C4: with the index stream 0,1,2,3,4,5 the generated password is
"ABCDEF"; creating `dave` without a password echoes it and stores a hash that
verifies against it. -/
theorem create_generated_password_witness :
    dtoDave.password = none ∧
    UserService.generateRandomPassword (fun i => i) 6 = "ABCDEF" ∧
    (∃ resp st2,
      UserService.create ⟨dbSample, []⟩ dtoDave (fun i => i)
        "44444444-4444-4444-4444-444444444444" 60 = (.ok resp, st2) ∧
      jsGet resp "password" =
        some (.str (UserService.generateRandomPassword (fun i => i) 6)) ∧
      (UserService.generateRandomPassword (fun i => i) 6).toList.length = 6 ∧
      (∀ c ∈ (UserService.generateRandomPassword (fun i => i) 6).toList,
        c ∈ passwordChars.toList) ∧
      ∃ u ∈ st2.db, u.id = "44444444-4444-4444-4444-444444444444" ∧
        ∀ q : String, bcryptCompareSync q u.password = true ↔
          q = UserService.generateRandomPassword (fun i => i) 6) := by
  refine ⟨rfl, by decide, ?_⟩
  exact create_generated_password ⟨dbSample, []⟩ dtoDave (fun i => i)
    "44444444-4444-4444-4444-444444444444" 60 rfl (fun i hi => by show i < 62; omega)

/-! ### Claim C5 -/

/-- Pagination of the current-revision `UserService.findAll`: `meta.total` is
the number of records visible under the caller's filter,
`meta.lastPage = ⌈total/limit⌉` (characterized by the two bounds), and the
page is the visible records sorted newest-created-first with `(page-1)*limit`
skipped and at most `limit` taken, each sanitized. -/
theorem findAll_pagination (db : List User) (cu : CurrentUser)
    (page limit : Nat) (visible : List User)
    (hp : 0 < page) (hl : 0 < limit)
    (hv : visible = if hasRoles cu.roles [Role.Admin] then db
      else db.filter (fun u => u.deletedAt == none)) :
    (UserService.findAll db ⟨page, limit⟩ cu).meta.total = visible.length ∧
    (UserService.findAll db ⟨page, limit⟩ cu).meta.page = page ∧
    (UserService.findAll db ⟨page, limit⟩ cu).meta.lastPage =
      visible.length ⌈/⌉ limit ∧
    visible.length ≤
      (UserService.findAll db ⟨page, limit⟩ cu).meta.lastPage * limit ∧
    (UserService.findAll db ⟨page, limit⟩ cu).meta.lastPage * limit <
      visible.length + limit ∧
    (UserService.findAll db ⟨page, limit⟩ cu).data =
      (((sortByCreatedAtDesc visible).drop ((page - 1) * limit)).take limit).map
        (fun u => UserService.excludeFields (userWithInclude db u)) ∧
    (UserService.findAll db ⟨page, limit⟩ cu).data.length ≤ limit ∧
    (sortByCreatedAtDesc visible).Pairwise (fun a b => b.createdAt ≤ a.createdAt) ∧
    (sortByCreatedAtDesc visible).Perm visible := by
  subst hv
  have hceil : ∀ t l : Nat, 0 < l →
      t ≤ ((t + l - 1) / l) * l ∧ ((t + l - 1) / l) * l < t + l := by
    intro t l hl0
    have hdm := Nat.div_add_mod (t + l - 1) l
    have hmod : (t + l - 1) % l < l := Nat.mod_lt _ hl0
    obtain ⟨A, hA⟩ : ∃ A, l * ((t + l - 1) / l) = A := ⟨_, rfl⟩
    rw [hA] at hdm
    rw [Nat.mul_comm ((t + l - 1) / l) l, hA]
    omega
  refine ⟨rfl, rfl, rfl, (hceil _ _ hl).1, (hceil _ _ hl).2, rfl, ?_, ?_, ?_⟩
  · simp only [UserService.findAll, List.length_map, List.length_take]
    exact Nat.min_le_left _ _
  · haveI : IsTotal User (fun a b => b.createdAt ≤ a.createdAt) :=
      ⟨fun x y => Nat.le_total y.createdAt x.createdAt⟩
    haveI : IsTrans User (fun a b => b.createdAt ≤ a.createdAt) :=
      ⟨fun _ _ _ h1 h2 => Nat.le_trans h2 h1⟩
    exact List.sorted_insertionSort _ _
  · exact List.perm_insertionSort _ _

/-- Concrete pagination check on the current revision: 25 active records,
limit 10, page 3 — lastPage 3 and the 5 remaining records, newest first. -/
theorem findAll_pagination_witness :
    (0:Nat) < 3 ∧ (0:Nat) < 10 ∧
    (UserService.findAll db25 ⟨3, 10⟩ userCU).meta.total = 25 ∧
    (UserService.findAll db25 ⟨3, 10⟩ userCU).meta.lastPage = 3 ∧
    (UserService.findAll db25 ⟨3, 10⟩ userCU).data.length = 5 ∧
    (UserService.findAll db25 ⟨3, 10⟩ userCU).data.map (fun r => jsGet r "id") =
      [some (.str "4"), some (.str "3"), some (.str "2"),
       some (.str "1"), some (.str "0")] := by
  have h := findAll_pagination db25 userCU 3 10 db25 (by decide) (by decide)
    (by decide)
  refine ⟨by decide, by decide, ?_, ?_, by decide, by decide⟩
  · rw [h.1]; decide
  · rw [h.2.2.1]; decide

/-- Counterexample to C5 as stated over its cited sources: the cited
`UsersService.findAll` issues its `findMany` with no `orderBy` clause, so its
page 3 of the 25-record store is rows 20..24 in store order (oldest first) —
not the newest-created-first remainder 4..0 the claim promises. -/
theorem findAll_unsorted_cex :
    (UsersService.findAll db25 ⟨3, 10⟩ userCU).data.map
        (fun r => jsGet r "createdAt") =
      [some (.time 20), some (.time 21), some (.time 22),
       some (.time 23), some (.time 24)] ∧
    (UsersService.findAll db25 ⟨3, 10⟩ userCU).data.map
        (fun r => jsGet r "createdAt") ≠
      [some (.time 4), some (.time 3), some (.time 2),
       some (.time 1), some (.time 0)] := by
  constructor
  · decide
  · decide

/-- **C5 (amended).** For every store state and positive `page` and `limit`:
the current-revision `UserService.findAll` reports `meta.total` as the number
of records visible under the caller's filter, `meta.lastPage = ⌈total/limit⌉`
(characterized by the two bounds), and its page is the visible records sorted
newest-created-first with `(page-1)*limit` skipped and at most `limit` taken,
each sanitized — for total=25, limit=10, page=3 this yields lastPage=3 and the
remaining 5 records. The cited `UsersService.findAll` computes the same
`meta` and the same skip/take window, but its `findMany` has no `orderBy`
clause, so its page is the window of the *unsorted* visible records (store
order), stripped of `password` only. -/
theorem findAll_pagination_both (db : List User) (cu : CurrentUser)
    (page limit : Nat) (visible : List User)
    (hp : 0 < page) (hl : 0 < limit)
    (hv : visible = if hasRoles cu.roles [Role.Admin] then db
      else db.filter (fun u => u.deletedAt == none)) :
    ((UserService.findAll db ⟨page, limit⟩ cu).meta.total = visible.length ∧
     (UserService.findAll db ⟨page, limit⟩ cu).meta.page = page ∧
     (UserService.findAll db ⟨page, limit⟩ cu).meta.lastPage =
       visible.length ⌈/⌉ limit ∧
     visible.length ≤
       (UserService.findAll db ⟨page, limit⟩ cu).meta.lastPage * limit ∧
     (UserService.findAll db ⟨page, limit⟩ cu).meta.lastPage * limit <
       visible.length + limit ∧
     (UserService.findAll db ⟨page, limit⟩ cu).data =
       (((sortByCreatedAtDesc visible).drop ((page - 1) * limit)).take limit).map
         (fun u => UserService.excludeFields (userWithInclude db u)) ∧
     (UserService.findAll db ⟨page, limit⟩ cu).data.length ≤ limit ∧
     (sortByCreatedAtDesc visible).Pairwise
       (fun a b => b.createdAt ≤ a.createdAt) ∧
     (sortByCreatedAtDesc visible).Perm visible) ∧
    (UsersService.findAll db ⟨page, limit⟩ cu).meta.total = visible.length ∧
    (UsersService.findAll db ⟨page, limit⟩ cu).meta.page = page ∧
    (UsersService.findAll db ⟨page, limit⟩ cu).meta.lastPage =
      visible.length ⌈/⌉ limit ∧
    (UsersService.findAll db ⟨page, limit⟩ cu).data =
      ((visible.drop ((page - 1) * limit)).take limit).map
        (fun u => ObjectManipulator.exclude (userRow u) ["password"]) ∧
    (UsersService.findAll db ⟨page, limit⟩ cu).data.length ≤ limit := by
  refine ⟨findAll_pagination db cu page limit visible hp hl hv, ?_, ?_, ?_, ?_, ?_⟩
  · subst hv; rfl
  · rfl
  · subst hv; rfl
  · subst hv; rfl
  · simp only [UsersService.findAll, List.length_map, List.length_take]
    exact Nat.min_le_left _ _

/-- Witness for C5 (amended): on the 25-record store with limit 10, page 3,
both cited implementations report lastPage 3 and 5 items; the current
revision returns creation times 4..0 (newest first), the users.service
variant returns 20..24 (store order). -/
theorem findAll_pagination_both_witness :
    (0:Nat) < 3 ∧ (0:Nat) < 10 ∧
    (UserService.findAll db25 ⟨3, 10⟩ userCU).meta.lastPage = 3 ∧
    (UserService.findAll db25 ⟨3, 10⟩ userCU).data.map
        (fun r => jsGet r "createdAt") =
      [some (.time 4), some (.time 3), some (.time 2),
       some (.time 1), some (.time 0)] ∧
    (UsersService.findAll db25 ⟨3, 10⟩ userCU).meta.lastPage = 3 ∧
    (UsersService.findAll db25 ⟨3, 10⟩ userCU).data.length = 5 ∧
    (UsersService.findAll db25 ⟨3, 10⟩ userCU).data.map
        (fun r => jsGet r "createdAt") =
      [some (.time 20), some (.time 21), some (.time 22),
       some (.time 23), some (.time 24)] := by
  have h := findAll_pagination_both db25 userCU 3 10 db25 (by decide) (by decide)
    (by decide)
  refine ⟨by decide, by decide, ?_, by decide, ?_, by decide, by decide⟩
  · rw [h.1.2.2.1]; decide
  · rw [h.2.2.2.1]; decide

/-! ### Claim C6 -/

/-- Counterexample to C6 as stated: signing is deterministic, so verifying the
same valid token twice at the same instant re-issues byte-identical tokens —
"two token strings that differ" fails at this input (both verifications
succeed and carry the same fresh token). -/
theorem token_reissue_same_instant_cex :
    AuthService.verifyToken dbSample tokAlice secret0 5 =
      .ok ⟨userRow alice, ⟨aliceId, 5, 5 + fourHours, secret0⟩⟩ ∧
    ¬ ((AuthService.verifyToken dbSample tokAlice secret0 5).toOption.map
        AuthResponse.token ≠
       (AuthService.verifyToken dbSample tokAlice secret0 5).toOption.map
        AuthResponse.token) := by
  exact ⟨by decide, fun h => h rfl⟩

/-- **C6 (amended).** `login` followed by `verify` of the returned token yields
the same user record (hence the same id), and each verification re-issues a
fresh token bound to the same subject id; two verifications at *distinct*
instants yield distinct token strings, while two at the same instant yield the
same (still freshly re-issued) token. -/
theorem login_verify_round_trip (db : List User)
    (username password secret : String) (t0 t1 t2 : Nat) (u : User)
    (hfind : db.find? (fun v => v.username == username) = some u)
    (hpw : bcryptCompareSync password u.password = true)
    (hbyid : db.find? (fun v => v.id == u.id) = some u)
    (ht1 : t1 < t0 + fourHours) (ht2 : t2 < t0 + fourHours) (hne : t1 ≠ t2) :
    AuthService.login db username password secret t0 =
      .ok ⟨ObjectManipulator.safeDelete (userRow u) "password",
           ⟨u.id, t0, t0 + fourHours, secret⟩⟩ ∧
    AuthService.verifyToken db ⟨u.id, t0, t0 + fourHours, secret⟩ secret t1 =
      .ok ⟨userRow u, ⟨u.id, t1, t1 + fourHours, secret⟩⟩ ∧
    AuthService.verifyToken db ⟨u.id, t0, t0 + fourHours, secret⟩ secret t2 =
      .ok ⟨userRow u, ⟨u.id, t2, t2 + fourHours, secret⟩⟩ ∧
    (⟨u.id, t1, t1 + fourHours, secret⟩ : SignedToken) ≠
      ⟨u.id, t2, t2 + fourHours, secret⟩ ∧
    (⟨u.id, t1, t1 + fourHours, secret⟩ : SignedToken).id = u.id ∧
    (⟨u.id, t2, t2 + fourHours, secret⟩ : SignedToken).id = u.id := by
  refine ⟨?_, ?_, ?_, ?_, rfl, rfl⟩
  · simp [AuthService.login, hfind, hpw, AuthService.signToken, jwtSign]
  · simp [AuthService.verifyToken, jwtVerify, ht1, hbyid,
      AuthService.signToken, jwtSign]
  · simp [AuthService.verifyToken, jwtVerify, ht2, hbyid,
      AuthService.signToken, jwtSign]
  · intro h
    exact hne (congrArg SignedToken.iat h)

/-- Witness for C6 (amended): alice logs in at time 0; the token verifies at
times 5 and 9, returning alice both times with distinct fresh tokens. -/
theorem login_verify_round_trip_witness :
    AuthService.login dbSample "alice" "Alpha@1" secret0 0 =
      .ok ⟨ObjectManipulator.safeDelete (userRow alice) "password",
           ⟨aliceId, 0, fourHours, secret0⟩⟩ ∧
    AuthService.verifyToken dbSample ⟨aliceId, 0, fourHours, secret0⟩ secret0 5 =
      .ok ⟨userRow alice, ⟨aliceId, 5, 5 + fourHours, secret0⟩⟩ ∧
    AuthService.verifyToken dbSample ⟨aliceId, 0, fourHours, secret0⟩ secret0 9 =
      .ok ⟨userRow alice, ⟨aliceId, 9, 9 + fourHours, secret0⟩⟩ ∧
    (⟨aliceId, 5, 5 + fourHours, secret0⟩ : SignedToken) ≠
      ⟨aliceId, 9, 9 + fourHours, secret0⟩ := by
  have h := login_verify_round_trip dbSample "alice" "Alpha@1" secret0 0 5 9
    alice (by decide) (by decide) (by decide) (by decide) (by decide) (by decide)
  exact ⟨h.1, h.2.1, h.2.2.1, h.2.2.2.1⟩

/-! ### Claim C7 -/

/-- Every key stripped by `EXCLUDE_FIELDS` is absent from a sanitized row. -/
theorem jsHas_sanitized_mem (db : List User) (u : User) :
    ∀ k ∈ EXCLUDE_FIELDS,
      jsHas (UserService.excludeFields (userWithInclude db u)) k = false := by
  intro k hk
  have h := jsHas_sanitized db u
  simp only [EXCLUDE_FIELDS, List.mem_cons, List.not_mem_nil, or_false] at hk
  rcases hk with h1 | h2 | h3 | h4
  · rw [h1]; exact h.1
  · rw [h2]; exact h.2.1
  · rw [h3]; exact h.2.2.1
  · rw [h4]; exact h.2.2.2

/-- A successful `findOne` response is a sanitized included row. -/
theorem findOne_ok_shape (db : List User) (idv : String) (cu : CurrentUser)
    (resp : UserResponse) (h : UserService.findOne db idv cu = .ok resp) :
    ∃ u, resp = UserService.excludeFields (userWithInclude db u) := by
  simp only [UserService.findOne] at h
  split at h
  · exact absurd h (by simp)
  · rename_i u hu
    exact ⟨u, (Except.ok.inj h).symm⟩

/-- A successful `findByUsername` response is a sanitized included row. -/
theorem findByUsername_ok_shape (db : List User) (username : String)
    (cu : CurrentUser) (resp : UserResponse)
    (h : UserService.findByUsername db username cu = .ok resp) :
    ∃ u, resp = UserService.excludeFields (userWithInclude db u) := by
  simp only [UserService.findByUsername] at h
  split at h
  · exact absurd h (by simp)
  · rename_i u hu
    exact ⟨u, (Except.ok.inj h).symm⟩

/-- A successful `update` response is a sanitized included row. -/
theorem update_ok_shape (st : AppState) (dto : UpdateUserDto) (cu : CurrentUser)
    (resp : UserResponse) (st2 : AppState)
    (h : UserService.update st dto cu = (.ok resp, st2)) :
    ∃ db2 row, resp = UserService.excludeFields (userWithInclude db2 row) := by
  simp only [UserService.update] at h
  split at h
  · exact absurd (congrArg Prod.fst h) (by simp)
  · split at h
    · exact absurd (congrArg Prod.fst h) (by simp)
    · rename_i row db2 heq
      exact ⟨db2, row, (Except.ok.inj (congrArg Prod.fst h)).symm⟩

/-- A successful `remove` response is a sanitized included row. -/
theorem remove_ok_shape (st : AppState) (idv : String) (cu : CurrentUser)
    (now : Nat) (resp : UserResponse) (st2 : AppState)
    (h : UserService.remove st idv cu now = (.ok resp, st2)) :
    ∃ db2 row, resp = UserService.excludeFields (userWithInclude db2 row) := by
  simp only [UserService.remove] at h
  split at h
  · exact absurd (congrArg Prod.fst h) (by simp)
  · split at h
    · exact absurd (congrArg Prod.fst h) (by simp)
    · split at h
      · exact absurd (congrArg Prod.fst h) (by simp)
      · rename_i row db2 heq
        exact ⟨db2, row, (Except.ok.inj (congrArg Prod.fst h)).symm⟩

/-- A successful `restore` response is a sanitized included row. -/
theorem restore_ok_shape (st : AppState) (idv : String) (cu : CurrentUser)
    (resp : UserResponse) (st2 : AppState)
    (h : UserService.restore st idv cu = (.ok resp, st2)) :
    ∃ db2 row, resp = UserService.excludeFields (userWithInclude db2 row) := by
  simp only [UserService.restore] at h
  split at h
  · exact absurd (congrArg Prod.fst h) (by simp)
  · split at h
    · exact absurd (congrArg Prod.fst h) (by simp)
    · split at h
      · exact absurd (congrArg Prod.fst h) (by simp)
      · rename_i row db2 heq
        exact ⟨db2, row, (Except.ok.inj (congrArg Prod.fst h)).symm⟩

/-- A `create` response is a sanitized included row with the plaintext
password appended. -/
theorem create_ok_shape (st : AppState) (dtoC : CreateUserDto)
    (rands : Nat → Nat) (newId : String) (now : Nat)
    (resp : UserResponse) (st2 : AppState)
    (h : UserService.create st dtoC rands newId now = (.ok resp, st2)) :
    ∃ db2 u pw, resp =
      UserService.excludeFields (userWithInclude db2 u) ++
        [("password", Val.str pw)] := by
  have h1 := congrArg Prod.fst h
  simp only [UserService.create] at h1
  exact ⟨_, _, _, (Except.ok.inj h1).symm⟩

/-- A successful first-revision `login` returns the stored row with only the
`password` property deleted. -/
theorem login_ok_shape (db : List User) (username password secret : String)
    (now : Nat) (r : AuthResponse)
    (h : AuthService.login db username password secret now = .ok r) :
    ∃ u, db.find? (fun v => v.username == username) = some u ∧
      r.user = ObjectManipulator.safeDelete (userRow u) "password" := by
  cases hf : db.find? (fun v => v.username == username) with
  | none => simp [AuthService.login, hf] at h
  | some u =>
    by_cases hc : bcryptCompareSync password u.password
    · have h2 := h
      simp only [AuthService.login, hf, hc, if_true] at h2
      exact ⟨u, rfl, by rw [← Except.ok.inj h2]⟩
    · simp [AuthService.login, hf, hc] at h

/-- A successful `verifyToken` returns the stored row completely unsanitized. -/
theorem verifyToken_ok_shape (db : List User) (tok : SignedToken)
    (secret : String) (now : Nat) (r : AuthResponse)
    (h : AuthService.verifyToken db tok secret now = .ok r) :
    ∃ u ∈ db, r.user = userRow u := by
  cases hv : jwtVerify tok secret now with
  | none => simp [AuthService.verifyToken, hv] at h
  | some payload =>
    obtain ⟨pid, p1, p2⟩ := payload
    cases hf : db.find? (fun v => v.id == pid) with
    | none => simp [AuthService.verifyToken, hv, hf] at h
    | some u =>
      have h2 := h
      simp only [AuthService.verifyToken, hv, hf] at h2
      exact ⟨u, List.mem_of_find?_eq_some hf, by rw [← Except.ok.inj h2]⟩

/-- Counterexample to C7 as stated: `verifyToken` answers with the stored row
including its `password` hash, `login` answers with the raw `createdById`
foreign-key column still present, and every item of the cited second-revision
`findAll` also keeps its raw `createdById` column. -/
theorem response_leak_cex :
    AuthService.verifyToken dbSample tokAlice secret0 5 =
      .ok ⟨userRow alice, ⟨aliceId, 5, 5 + fourHours, secret0⟩⟩ ∧
    jsHas (userRow alice) "password" = true ∧
    AuthService.login dbSample "alice" "Alpha@1" secret0 0 =
      .ok ⟨ObjectManipulator.safeDelete (userRow alice) "password",
           ⟨aliceId, 0, fourHours, secret0⟩⟩ ∧
    jsHas (ObjectManipulator.safeDelete (userRow alice) "password")
      "createdById" = true ∧
    (UserServiceRev2.findAll dbSample ⟨1, 10⟩ adminCU).data.map
      (fun r => jsHas r "createdById") = [true, true] := by
  refine ⟨by decide, by decide, by decide, by decide, by decide⟩

/-- **C7 (amended).** The current-revision user-service operations (`create`,
`findAll`, `findOne`, `findByUsername`, `update`, `remove`, `restore`) strip
the password hash and the three raw foreign-key id columns from every response
(`create` re-attaches only the one-time plaintext password). The other cited
operations do not: the historical second-revision `findAll` — and likewise the
users.service variant — strips only `password`, leaving the raw
createdById/updatedById/deletedById columns in every item; auth `login`
deletes only the `password` property, leaving the raw foreign-key id columns
in the response; and `verifyToken` returns the stored row unsanitized,
password hash included. -/
theorem response_sanitization (st : AppState) (db : List User)
    (cu : CurrentUser) (idv username password secret : String)
    (pag : PaginationDto) (dtoC : CreateUserDto) (dtoU : UpdateUserDto)
    (rands : Nat → Nat) (newId : String) (now : Nat) (tok : SignedToken) :
    (∀ resp, UserService.findOne db idv cu = .ok resp →
      ∀ k ∈ EXCLUDE_FIELDS, jsHas resp k = false) ∧
    (∀ resp, UserService.findByUsername db username cu = .ok resp →
      ∀ k ∈ EXCLUDE_FIELDS, jsHas resp k = false) ∧
    (∀ resp ∈ (UserService.findAll db pag cu).data,
      ∀ k ∈ EXCLUDE_FIELDS, jsHas resp k = false) ∧
    (∀ resp st2, UserService.create st dtoC rands newId now = (.ok resp, st2) →
      jsHas resp "createdById" = false ∧ jsHas resp "updatedById" = false ∧
      jsHas resp "deletedById" = false) ∧
    (∀ resp st2, UserService.update st dtoU cu = (.ok resp, st2) →
      ∀ k ∈ EXCLUDE_FIELDS, jsHas resp k = false) ∧
    (∀ resp st2, UserService.remove st idv cu now = (.ok resp, st2) →
      ∀ k ∈ EXCLUDE_FIELDS, jsHas resp k = false) ∧
    (∀ resp st2, UserService.restore st idv cu = (.ok resp, st2) →
      ∀ k ∈ EXCLUDE_FIELDS, jsHas resp k = false) ∧
    (∀ resp ∈ (UserServiceRev2.findAll db pag cu).data,
      jsHas resp "password" = false ∧ jsHas resp "createdById" = true ∧
      jsHas resp "updatedById" = true ∧ jsHas resp "deletedById" = true) ∧
    (∀ resp ∈ (UsersService.findAll db pag cu).data,
      jsHas resp "password" = false ∧ jsHas resp "createdById" = true ∧
      jsHas resp "updatedById" = true ∧ jsHas resp "deletedById" = true) ∧
    (∀ r, AuthService.login db username password secret now = .ok r →
      jsHas r.user "password" = false ∧ jsHas r.user "createdById" = true ∧
      jsHas r.user "updatedById" = true ∧ jsHas r.user "deletedById" = true) ∧
    (∀ r, AuthService.verifyToken db tok secret now = .ok r →
      jsHas r.user "password" = true ∧ jsHas r.user "createdById" = true) := by
  refine ⟨?_, ?_, ?_, ?_, ?_, ?_, ?_, ?_, ?_, ?_, ?_⟩
  · intro resp h
    obtain ⟨u, hu⟩ := findOne_ok_shape db idv cu resp h
    rw [hu]; exact jsHas_sanitized_mem db u
  · intro resp h
    obtain ⟨u, hu⟩ := findByUsername_ok_shape db username cu resp h
    rw [hu]; exact jsHas_sanitized_mem db u
  · intro resp hresp
    simp only [UserService.findAll, List.mem_map] at hresp
    obtain ⟨u, _, hu⟩ := hresp
    rw [← hu]; exact jsHas_sanitized_mem db u
  · intro resp st2 h
    obtain ⟨db2, u, pw, hu⟩ := create_ok_shape st dtoC rands newId now resp st2 h
    have hs := jsHas_sanitized db2 u
    subst hu
    refine ⟨?_, ?_, ?_⟩
    · show List.any _ _ = false
      rw [List.any_append, Bool.or_eq_false_iff]
      exact ⟨hs.2.1, by simp⟩
    · show List.any _ _ = false
      rw [List.any_append, Bool.or_eq_false_iff]
      exact ⟨hs.2.2.1, by simp⟩
    · show List.any _ _ = false
      rw [List.any_append, Bool.or_eq_false_iff]
      exact ⟨hs.2.2.2, by simp⟩
  · intro resp st2 h
    obtain ⟨db2, row, hu⟩ := update_ok_shape st dtoU cu resp st2 h
    rw [hu]; exact jsHas_sanitized_mem db2 row
  · intro resp st2 h
    obtain ⟨db2, row, hu⟩ := remove_ok_shape st idv cu now resp st2 h
    rw [hu]; exact jsHas_sanitized_mem db2 row
  · intro resp st2 h
    obtain ⟨db2, row, hu⟩ := restore_ok_shape st idv cu resp st2 h
    rw [hu]; exact jsHas_sanitized_mem db2 row
  · intro resp hresp
    simp only [UserServiceRev2.findAll, List.mem_map] at hresp
    obtain ⟨u, _, hu⟩ := hresp
    rw [← hu]
    refine ⟨?_, ?_, ?_, ?_⟩ <;>
      simp [ObjectManipulator.exclude, userRow, jsHas]
  · intro resp hresp
    simp only [UsersService.findAll, List.mem_map] at hresp
    obtain ⟨u, _, hu⟩ := hresp
    rw [← hu]
    refine ⟨?_, ?_, ?_, ?_⟩ <;>
      simp [ObjectManipulator.exclude, userRow, jsHas]
  · intro r h
    obtain ⟨u, _, hu⟩ := login_ok_shape db username password secret now r h
    rw [hu]
    refine ⟨?_, ?_, ?_, ?_⟩ <;>
      simp [ObjectManipulator.safeDelete, userRow, jsHas]
  · intro r h
    obtain ⟨u, _, hu⟩ := verifyToken_ok_shape db tok secret now r h
    rw [hu]
    exact ⟨by simp [userRow, jsHas], by simp [userRow, jsHas]⟩

/-- Witness for C7 (amended): concrete checks on the sample store — the
admin's `findOne` of `bob` is sanitized; a second-revision `findAll` item
keeps its raw `createdById`; a verified token for `alice` leaks the password
hash. -/
theorem response_sanitization_witness :
    UserService.findOne dbSample bob.id adminCU =
      .ok (UserService.excludeFields (userWithInclude dbSample bob)) ∧
    jsHas (UserService.excludeFields (userWithInclude dbSample bob))
      "password" = false ∧
    jsHas (UserService.excludeFields (userWithInclude dbSample bob))
      "createdById" = false ∧
    jsHas (ObjectManipulator.exclude (userRow bob) ["password"])
      "createdById" = true ∧
    jsHas (userRow alice) "password" = true := by
  have h := response_sanitization ⟨dbSample, []⟩ dbSample adminCU bob.id
    "alice" "Alpha@1" secret0 ⟨1, 10⟩ dtoDave ⟨aliceId, none, none, none⟩
    (fun i => i) "44444444-4444-4444-4444-444444444444" 0 tokAlice
  have h1 := h.1 (UserService.excludeFields (userWithInclude dbSample bob))
    (by decide)
  have h8 := h.2.2.2.2.2.2.2.1
    (ObjectManipulator.exclude (userRow bob) ["password"]) (by decide)
  exact ⟨by decide, h1 "password" (by decide), h1 "createdById" (by decide),
    h8.2.1, by decide⟩

/-! ### Claim C8 -/

/-- Reading a key just written to the cache. -/
theorem cacheGet_cacheSet (c : Cache) (k : String) (v : CacheVal) :
    cacheGet (cacheSet c k v) k = some v := by
  simp [cacheGet, cacheSet, List.find?]

/-- With an empty cache, the controller's cached `findOne` answers exactly the
service's fresh `findOne` on the current store. -/
theorem controller_findOne_empty_cache (db : List User) (idv : String)
    (cu : CurrentUser) (hid : isUUID idv = true) :
    (UserController.findOne ⟨db, []⟩ idv cu).1 = UserService.findOne db idv cu := by
  cases hs : UserService.findOne db idv cu with
  | error e => simp [UserController.findOne, hid, cacheGet, hs]
  | ok r => simp [UserController.findOne, hid, cacheGet, hs]

/-- **C8.** Every completed write (`create`, `update`, `remove`, `restore`)
leaves the response cache empty, so a controller `findOne` on the written id
issued after the write computes from the updated store and cannot serve a
pre-update value from the cache. -/
theorem cache_invalidated_after_write (st : AppState) (dtoC : CreateUserDto)
    (dtoU : UpdateUserDto) (idv : String) (cu cu2 : CurrentUser)
    (rands : Nat → Nat) (newId : String) (now : Nat) :
    (UserService.create st dtoC rands newId now).2.cache = [] ∧
    (∀ resp st2, UserService.update st dtoU cu = (.ok resp, st2) →
      st2.cache = []) ∧
    (∀ resp st2, UserService.remove st idv cu now = (.ok resp, st2) →
      st2.cache = []) ∧
    (∀ resp st2, UserService.restore st idv cu = (.ok resp, st2) →
      st2.cache = []) ∧
    (∀ resp st2, UserService.update st dtoU cu = (.ok resp, st2) →
      isUUID dtoU.id = true →
      (UserController.findOne st2 dtoU.id cu2).1 =
        UserService.findOne st2.db dtoU.id cu2) := by
  have hupd : ∀ resp st2, UserService.update st dtoU cu = (.ok resp, st2) →
      st2.cache = [] := by
    intro resp st2 h
    simp only [UserService.update] at h
    split at h
    · exact absurd (congrArg Prod.fst h) (by simp)
    · split at h
      · exact absurd (congrArg Prod.fst h) (by simp)
      · obtain ⟨h1, h2⟩ := Prod.mk.injEq .. ▸ h
        rw [← h2]
  refine ⟨by simp [UserService.create], hupd, ?_, ?_, ?_⟩
  · intro resp st2 h
    simp only [UserService.remove] at h
    split at h
    · exact absurd (congrArg Prod.fst h) (by simp [handleException])
    · split at h
      · exact absurd (congrArg Prod.fst h) (by simp [handleException])
      · split at h
        · exact absurd (congrArg Prod.fst h) (by simp [handleException])
        · obtain ⟨h1, h2⟩ := Prod.mk.injEq .. ▸ h
          rw [← h2]
  · intro resp st2 h
    simp only [UserService.restore] at h
    split at h
    · exact absurd (congrArg Prod.fst h) (by simp [handleException])
    · split at h
      · exact absurd (congrArg Prod.fst h) (by simp [handleException])
      · split at h
        · exact absurd (congrArg Prod.fst h) (by simp [handleException])
        · obtain ⟨h1, h2⟩ := Prod.mk.injEq .. ▸ h
          rw [← h2]
  · intro resp st2 h hid
    have hc := hupd resp st2 h
    obtain ⟨db2, c2⟩ := st2
    simp only at hc
    subst hc
    exact controller_findOne_empty_cache db2 dtoU.id cu2 hid

/-- The pre-update (stale) cached response used in the C8 scenario. -/
def staleResp : UserResponse := [("id", .str aliceId), ("username", .str "stale")]

/-- A state whose cache still holds a stale entry for alice's id. -/
def stStale : AppState := ⟨dbSample, [("user:id:" ++ aliceId, .resp staleResp)]⟩

/-- The concrete partial update applied to alice in the C8 witness. -/
def dtoUpd : UpdateUserDto := ⟨aliceId, none, some "alice2@mail.com", none⟩

/-- Witness for C8: updating alice wipes the stale cache entry, and the next
controller read of her id computes from the updated store. -/
theorem cache_invalidated_after_write_witness :
    (UserService.update stStale dtoUpd adminCU).2.cache = [] ∧
    (UserController.findOne (UserService.update stStale dtoUpd adminCU).2
        aliceId userCU).1 =
      UserService.findOne (UserService.update stStale dtoUpd adminCU).2.db
        aliceId userCU := by
  have h := cache_invalidated_after_write stStale dtoDave dtoUpd aliceId
    adminCU userCU (fun i => i) "44444444-4444-4444-4444-444444444444" 99
  obtain ⟨resp0, st20, hu⟩ :
      ∃ resp st2, UserService.update stStale dtoUpd adminCU = (.ok resp, st2) :=
    ⟨_, _, rfl⟩
  have hsnd := congrArg Prod.snd hu
  constructor
  · rw [hsnd]
    exact h.2.1 resp0 st20 hu
  · rw [hsnd]
    exact h.2.2.2.2 resp0 st20 hu (by decide)

/-! ### Claim C9 -/

/-- **C9.** A soft-deleted account can still authenticate: neither the login
lookup (`where: { username }`) nor the verify lookup (`where: { id }`) filters
on `deletedAt`, so a disabled user with correct credentials logs in and a
token bound to its id verifies. -/
theorem disabled_account_can_authenticate (db : List User)
    (username password secret : String) (t0 t1 tdel : Nat) (u : User)
    (hfind : db.find? (fun v => v.username == username) = some u)
    (hdel : u.deletedAt = some tdel)
    (hpw : bcryptCompareSync password u.password = true)
    (hbyid : db.find? (fun v => v.id == u.id) = some u)
    (hexp : t1 < t0 + fourHours) :
    AuthService.login db username password secret t0 =
      .ok ⟨ObjectManipulator.safeDelete (userRow u) "password",
           ⟨u.id, t0, t0 + fourHours, secret⟩⟩ ∧
    AuthService.verifyToken db ⟨u.id, t0, t0 + fourHours, secret⟩ secret t1 =
      .ok ⟨userRow u, ⟨u.id, t1, t1 + fourHours, secret⟩⟩ := by
  constructor
  · simp [AuthService.login, hfind, hpw, AuthService.signToken, jwtSign]
  · simp [AuthService.verifyToken, jwtVerify, hexp, hbyid,
      AuthService.signToken, jwtSign]

/-- Witness for C9: the soft-deleted `bob` logs in with his correct password
and the issued token verifies. -/
theorem disabled_account_can_authenticate_witness :
    bob.deletedAt = some 50 ∧
    AuthService.login dbSample "bob" "Bravo@2" secret0 0 =
      .ok ⟨ObjectManipulator.safeDelete (userRow bob) "password",
           ⟨bobId, 0, fourHours, secret0⟩⟩ ∧
    AuthService.verifyToken dbSample ⟨bobId, 0, fourHours, secret0⟩ secret0 9 =
      .ok ⟨userRow bob, ⟨bobId, 9, 9 + fourHours, secret0⟩⟩ := by
  have h := disabled_account_can_authenticate dbSample "bob" "Bravo@2" secret0
    0 9 50 bob (by decide) (by decide) (by decide) (by decide) (by decide)
  exact ⟨by decide, h.1, h.2⟩

/-! ### Claim C10 -/

/-- **C10.** Cache keys are derived from the lookup argument only, never from
the caller: once any caller's `findOne` succeeds (populating the cache), a
second caller with any role set receives byte-for-byte the first caller's
cached response, and the state does not change further. -/
theorem cached_response_identity_oblivious (st : AppState) (idv : String)
    (cu1 cu2 : CurrentUser) (r : UserResponse) (st1 : AppState)
    (h : UserController.findOne st idv cu1 = (.ok r, st1)) :
    UserController.findOne st1 idv cu2 = (.ok r, st1) := by
  by_cases hid : isUUID idv
  · cases hc : cacheGet st.cache s!"user:id:{idv}" with
    | some v =>
      cases v with
      | resp r0 =>
        simp only [UserController.findOne, hid, Bool.not_true,
          Bool.false_eq_true, if_false, hc] at h
        obtain ⟨hr, hst⟩ := Prod.mk.injEq .. ▸ h
        rw [← hst]
        simp only [UserController.findOne, hid, Bool.not_true,
          Bool.false_eq_true, if_false, hc]
        rw [Except.ok.inj hr]
      | oneSummary s =>
        simp only [UserController.findOne, hid, Bool.not_true,
          Bool.false_eq_true, if_false, hc] at h
        cases hs : UserService.findOne st.db idv cu1 with
        | error e => rw [hs] at h; exact absurd (congrArg Prod.fst h) (by simp)
        | ok r2 =>
          rw [hs] at h
          obtain ⟨hr, hst⟩ := Prod.mk.injEq .. ▸ h
          rw [← hst]
          simp only [UserController.findOne, hid, Bool.not_true,
            Bool.false_eq_true, if_false, cacheGet_cacheSet]
          rw [Except.ok.inj hr]
      | manySummaries l =>
        simp only [UserController.findOne, hid, Bool.not_true,
          Bool.false_eq_true, if_false, hc] at h
        cases hs : UserService.findOne st.db idv cu1 with
        | error e => rw [hs] at h; exact absurd (congrArg Prod.fst h) (by simp)
        | ok r2 =>
          rw [hs] at h
          obtain ⟨hr, hst⟩ := Prod.mk.injEq .. ▸ h
          rw [← hst]
          simp only [UserController.findOne, hid, Bool.not_true,
            Bool.false_eq_true, if_false, cacheGet_cacheSet]
          rw [Except.ok.inj hr]
    | none =>
      simp only [UserController.findOne, hid, Bool.not_true,
        Bool.false_eq_true, if_false, hc] at h
      cases hs : UserService.findOne st.db idv cu1 with
      | error e => rw [hs] at h; exact absurd (congrArg Prod.fst h) (by simp)
      | ok r2 =>
        rw [hs] at h
        obtain ⟨hr, hst⟩ := Prod.mk.injEq .. ▸ h
        rw [← hst]
        simp only [UserController.findOne, hid, Bool.not_true,
          Bool.false_eq_true, if_false, cacheGet_cacheSet]
        rw [Except.ok.inj hr]
  · rw [Bool.not_eq_true] at hid
    simp [UserController.findOne, hid] at h

/-- The state after the admin's controller read of the soft-deleted `bob`:
bob's sanitized record is cached under the identity-free key. -/
def stCachedBob : AppState :=
  ⟨dbSample, [("user:id:" ++ bobId,
    .resp (UserService.excludeFields (userWithInclude dbSample bob)))]⟩

/-- Witness for C10: the admin's read caches the soft-deleted `bob`; the
non-admin then receives that cached response byte-for-byte, although a direct
service lookup under the non-admin's filter answers NotFound. -/
theorem cached_response_identity_oblivious_witness :
    UserController.findOne ⟨dbSample, []⟩ bobId adminCU =
      (.ok (UserService.excludeFields (userWithInclude dbSample bob)), stCachedBob) ∧
    UserController.findOne stCachedBob bobId userCU =
      (.ok (UserService.excludeFields (userWithInclude dbSample bob)), stCachedBob) ∧
    UserService.findOne dbSample bobId userCU =
      .error ⟨.notFound, "User with id 22222222-2222-2222-2222-222222222222 not found"⟩ := by
  have h1 : UserController.findOne ⟨dbSample, []⟩ bobId adminCU =
      (.ok (UserService.excludeFields (userWithInclude dbSample bob)), stCachedBob) := by
    decide
  exact ⟨h1, cached_response_identity_oblivious ⟨dbSample, []⟩ bobId adminCU
    userCU _ _ h1, by decide⟩

end AuthMs
